import Mathlib

/-!
# Verification of the diagram-lit-element path-distortion core

Shallow embedding of the vector-path transformation engine:
geometry primitives (`lerp`, `cubicBezierPoint`), the line/arc to cubic
Bézier converters (`lineToBezier`, `arcToCubicBeziers`), the Bézier
subdivider (`splitCubicBezier`), the path-command interpreter
(`distortPath` and its helpers) and the multi-pass distortion engine
(`makeDraftyPath`, modelled by the ordered list of draw calls it issues).

Coordinates are modelled as real numbers; the host language's
number-to-string conversion is abstracted as a parameter of the
rendering stage.
-/

noncomputable section

/-- A 2-D point, mirroring the `Point` type `{x, y}` of the source. -/
structure Point where
  x : ℝ
  y : ℝ

instance : Inhabited Point := ⟨⟨0, 0⟩⟩

/-- A cubic Bézier segment `[P0, P1, P2, P3]` (anchor, control, control, anchor). -/
structure Seg where
  p0 : Point
  p1 : Point
  p2 : Point
  p3 : Point

instance : Inhabited Seg := ⟨⟨default, default, default, default⟩⟩

/-- Linear interpolation `a + (b - a) * t`, the `lerp` local of `cubicBezierPoint`. -/
def lerp (a b t : ℝ) : ℝ := a + (b - a) * t

/-- De Casteljau evaluation of a cubic Bézier at parameter `t`
(`cubicBezierPoint` in the source). -/
def cubicBezierPoint (p0 p1 p2 p3 : Point) (t : ℝ) : Point :=
  let x01 := lerp p0.x p1.x t
  let y01 := lerp p0.y p1.y t
  let x12 := lerp p1.x p2.x t
  let y12 := lerp p1.y p2.y t
  let x23 := lerp p2.x p3.x t
  let y23 := lerp p2.y p3.y t
  let x012 := lerp x01 x12 t
  let y012 := lerp y01 y12 t
  let x123 := lerp x12 x23 t
  let y123 := lerp y12 y23 t
  ⟨lerp x012 x123 t, lerp y012 y123 t⟩

/-- Splits a cubic Bézier into `segments` sub-curves (`splitCubicBezier` in the
source): the loop `for (i = 1; i <= segments; i++)` is modelled as a map over
`List.range segments` with `i = j + 1`. -/
def splitCubicBezier (p0 p1 p2 p3 : Point) (segments : ℕ) : List Seg :=
  (List.range segments).map fun j =>
    let i : ℕ := j + 1
    let t0 : ℝ := ((i : ℝ) - 1) / (segments : ℝ)
    let t1 : ℝ := (i : ℝ) / (segments : ℝ)
    { p0 := cubicBezierPoint p0 p1 p2 p3 t0
      p1 := cubicBezierPoint p0 p1 p2 p3 (t0 + (t1 - t0) / 3)
      p2 := cubicBezierPoint p0 p1 p2 p3 (t0 + (2 * (t1 - t0)) / 3)
      p3 := cubicBezierPoint p0 p1 p2 p3 t1 }

/-- Converts a straight segment into a degenerate cubic with collinear control
points at the exact thirds (`lineToBezier` in the source). -/
def lineToBezier (p0 p1 : Point) : Seg :=
  { p0 := p0
    p1 := ⟨p0.x + (p1.x - p0.x) / 3, p0.y + (p1.y - p0.y) / 3⟩
    p2 := ⟨p0.x + (2 * (p1.x - p0.x)) / 3, p0.y + (2 * (p1.y - p0.y)) / 3⟩
    p3 := p1 }

/-- Elliptical arc descriptor: the argument record of `arcToCubicBeziers`
(`px, py` start point, `cx, cy` end point, radii, rotation in degrees, flags). -/
structure Arc where
  px : ℝ
  py : ℝ
  cx : ℝ
  cy : ℝ
  rx : ℝ
  ry : ℝ
  xAxisRotation : ℝ
  largeArcFlag : Bool
  sweepFlag : Bool

/-- Degree-to-radian conversion (`toRadians` local of `arcToCubicBeziers`). -/
def toRadians (deg : ℝ) : ℝ := deg * Real.pi / 180

/-- The host language's `Math.atan2(y, x)`: the argument of the complex number
`x + y i`, in `(-π, π]`. -/
def atan2 (y x : ℝ) : ℝ := Complex.arg ⟨x, y⟩

/-- Per-segment sweep bound `π / 12` (the `maxSegmentAngle` local). -/
def maxSegmentAngle : ℝ := Real.pi / 12

namespace Arc

/-- Source: `sinPhi = sin(toRadians(xAxisRotation))`. -/
def sinPhi (a : Arc) : ℝ := Real.sin (toRadians a.xAxisRotation)

/-- Source: `cosPhi = cos(toRadians(xAxisRotation))`. -/
def cosPhi (a : Arc) : ℝ := Real.cos (toRadians a.xAxisRotation)

/-- Source: `dx = (px - cx) / 2`. -/
def dx (a : Arc) : ℝ := (a.px - a.cx) / 2

/-- Source: `dy = (py - cy) / 2`. -/
def dy (a : Arc) : ℝ := (a.py - a.cy) / 2

/-- Source: `x1p = cosPhi * dx + sinPhi * dy`. -/
def x1p (a : Arc) : ℝ := a.cosPhi * a.dx + a.sinPhi * a.dy

/-- Source: `y1p = -sinPhi * dx + cosPhi * dy`. -/
def y1p (a : Arc) : ℝ := -a.sinPhi * a.dx + a.cosPhi * a.dy

/-- Source: `x1p2 = x1p * x1p`. -/
def x1p2 (a : Arc) : ℝ := a.x1p * a.x1p

/-- Source: `y1p2 = y1p * y1p`. -/
def y1p2 (a : Arc) : ℝ := a.y1p * a.y1p

/-- Source: `lambda = x1p2 / rx2 + y1p2 / ry2`, computed from the initial
`rx2 = rx * rx`, `ry2 = ry * ry`. -/
def lambda (a : Arc) : ℝ := a.x1p2 / (a.rx * a.rx) + a.y1p2 / (a.ry * a.ry)

/-- The mutable `rx2` after the radii-correction branch: when `lambda > 1` the
source reassigns `rx2 = (rx * factor) ** 2` with `factor = sqrt(lambda)`. -/
def rx2 (a : Arc) : ℝ :=
  if 1 < a.lambda then (a.rx * Real.sqrt a.lambda) ^ 2 else a.rx * a.rx

/-- The mutable `ry2` after the radii-correction branch. -/
def ry2 (a : Arc) : ℝ :=
  if 1 < a.lambda then (a.ry * Real.sqrt a.lambda) ^ 2 else a.ry * a.ry

/-- Source: `sign = largeArcFlag !== sweepFlag ? 1 : -1`. -/
def sign (a : Arc) : ℝ := if a.largeArcFlag ≠ a.sweepFlag then 1 else -1

/-- The center-equation coefficient, with the radicand clamped to `≥ 0`. -/
def coef (a : Arc) : ℝ :=
  a.sign *
    Real.sqrt (max 0
      ((a.rx2 * a.ry2 - a.rx2 * a.y1p2 - a.ry2 * a.x1p2) /
        (a.rx2 * a.y1p2 + a.ry2 * a.x1p2)))

/-- Source: `cxp = (coef * (rx * y1p)) / ry`. -/
def cxp (a : Arc) : ℝ := a.coef * (a.rx * a.y1p) / a.ry

/-- Source: `cyp = (coef * -(ry * x1p)) / rx`. -/
def cyp (a : Arc) : ℝ := a.coef * -(a.ry * a.x1p) / a.rx

/-- Ellipse center x in the unrotated frame. -/
def cxCenter (a : Arc) : ℝ := a.cosPhi * a.cxp - a.sinPhi * a.cyp + (a.px + a.cx) / 2

/-- Ellipse center y in the unrotated frame. -/
def cyCenter (a : Arc) : ℝ := a.sinPhi * a.cxp + a.cosPhi * a.cyp + (a.py + a.cy) / 2

/-- Source: `startAngle = atan2((y1p - cyp) / ry, (x1p - cxp) / rx)`. -/
def startAngle (a : Arc) : ℝ := atan2 ((a.y1p - a.cyp) / a.ry) ((a.x1p - a.cxp) / a.rx)

/-- The end-vector angle `atan2((-y1p - cyp) / ry, (-x1p - cxp) / rx)`
(the first operand of the `deltaAngle` subtraction in the source). -/
def endAngle (a : Arc) : ℝ := atan2 ((-a.y1p - a.cyp) / a.ry) ((-a.x1p - a.cxp) / a.rx)

/-- Source: `deltaAngle` as first assigned: `endAngle - startAngle`. -/
def deltaAngle0 (a : Arc) : ℝ := a.endAngle - a.startAngle

/-- Source: `deltaAngle` after `if (!sweepFlag && deltaAngle > 0) deltaAngle -= 2π`. -/
def deltaAngle1 (a : Arc) : ℝ :=
  if a.sweepFlag = false ∧ 0 < a.deltaAngle0 then a.deltaAngle0 - 2 * Real.pi
  else a.deltaAngle0

/-- Source: `deltaAngle` after `if (sweepFlag && deltaAngle < 0) deltaAngle += 2π`. -/
def deltaAngle (a : Arc) : ℝ :=
  if a.sweepFlag = true ∧ a.deltaAngle1 < 0 then a.deltaAngle1 + 2 * Real.pi
  else a.deltaAngle1

/-- Source: `segments = Math.ceil(Math.abs(deltaAngle / maxSegmentAngle))`. -/
def segments (a : Arc) : ℕ := ⌈|a.deltaAngle / maxSegmentAngle|⌉₊

/-- Source: `delta = deltaAngle / segments`. -/
def delta (a : Arc) : ℝ := a.deltaAngle / (a.segments : ℝ)

/-- Body of the segment-generation loop at index `i`. -/
def segAt (a : Arc) (i : ℕ) : Seg :=
  let theta1 := a.startAngle + (i : ℝ) * a.delta
  let theta2 := theta1 + a.delta
  let t := (4 / 3) * Real.tan ((theta2 - theta1) / 4)
  let p0 : Point :=
    ⟨a.cxCenter + a.rx * Real.cos theta1 * a.cosPhi - a.ry * Real.sin theta1 * a.sinPhi,
     a.cyCenter + a.rx * Real.cos theta1 * a.sinPhi + a.ry * Real.sin theta1 * a.cosPhi⟩
  let p3 : Point :=
    ⟨a.cxCenter + a.rx * Real.cos theta2 * a.cosPhi - a.ry * Real.sin theta2 * a.sinPhi,
     a.cyCenter + a.rx * Real.cos theta2 * a.sinPhi + a.ry * Real.sin theta2 * a.cosPhi⟩
  let p1 : Point :=
    ⟨p0.x - t * (a.rx * Real.sin theta1 * a.cosPhi + a.ry * Real.cos theta1 * a.sinPhi),
     p0.y - t * (a.rx * Real.sin theta1 * a.sinPhi - a.ry * Real.cos theta1 * a.cosPhi)⟩
  let p2 : Point :=
    ⟨p3.x + t * (a.rx * Real.sin theta2 * a.cosPhi + a.ry * Real.cos theta2 * a.sinPhi),
     p3.y + t * (a.rx * Real.sin theta2 * a.sinPhi - a.ry * Real.cos theta2 * a.cosPhi)⟩
  ⟨p0, p1, p2, p3⟩

end Arc

/-- Converts one elliptical arc into cubic Bézier segments
(`arcToCubicBeziers` in the source); the `for (i = 0; i < segments; i++)`
push loop is modelled as a map over `List.range segments`. -/
def arcToCubicBeziers (a : Arc) : List Seg := (List.range a.segments).map a.segAt

/-- The arc of the failing input for the radii-correction claims: from `(0,0)`
to `(10,0)` with `rx = ry = 1` (so `lambda = 25 > 1`), no rotation,
`largeArcFlag = false`, `sweepFlag = true`. -/
def arcBug : Arc :=
  { px := 0, py := 0, cx := 10, cy := 0, rx := 1, ry := 1
    xAxisRotation := 0, largeArcFlag := false, sweepFlag := true }

/-- A well-behaved arc: from `(0,0)` to `(2,0)` with `rx = ry = 1`
(`lambda = 1`, so the radii exactly span the endpoints). -/
def arcOk : Arc :=
  { px := 0, py := 0, cx := 2, cy := 0, rx := 1, ry := 1
    xAxisRotation := 0, largeArcFlag := false, sweepFlag := true }

/-- Output command emitted by the interpreter: one piece appended to
`rebuiltPath`.  `gen` is the generic branch (`M`, `C`, `S`, `Q`, `T`), `cubic`
the `C`-commands produced by the `L` and `A` branches, `line` the `L`-commands
produced by the `H` and `V` branches, `close` the `Z` output, and `raw` the
verbatim pass-through of an unknown command letter. -/
inductive OutCmd where
  | gen (letter : Char) (coords : List ℝ)
  | cubic (c1x c1y c2x c2y ex ey : ℝ)
  | line (x y : ℝ)
  | close
  | raw (cs : List Char)

/-- Interpreter state: the tracked current point and subpath start, plus the
position in the random stream (`Math.random()` is modelled as the stream
`rng : ℕ → ℝ` consumed call by call). -/
structure PState where
  currentPoint : Point
  subpathStart : Point
  rand : ℕ

/-- Source: `distortCoord(val) = val + (Math.random() - 0.5) * jitter * 2`, with the
`k`-th draw of the random stream. -/
def distortCoord (rng : ℕ → ℝ) (jitter : ℝ) (k : ℕ) (val : ℝ) : ℝ :=
  val + (rng k - 0.5) * jitter * 2

/-- Numeric value of a digit run. -/
def digitsVal (ds : List Char) : ℕ :=
  ds.foldl (fun acc c => acc * 10 + (c.toNat - Char.toNat ('0'))) 0

/-- Value of a fractional digit run. -/
def fracVal (ds : List Char) : ℚ := (digitsVal ds : ℚ) / 10 ^ ds.length

/-- The host language's `parseFloat` on a separator-free chunk: parses a
leading `[+-]? digits [. digits]? ([eE] [+-]? digits)?` prefix, ignores
trailing junk, and returns `none` (NaN) when no digit is found. -/
def jsParseFloat (cs : List Char) : Option ℚ :=
  let sgn : ℚ := if cs.headI = '-' then -1 else 1
  let cs1 := if cs.headI = '-' ∨ cs.headI = '+' then cs.tail else cs
  let intDigits := cs1.takeWhile Char.isDigit
  let cs2 := cs1.dropWhile Char.isDigit
  let hasDot := cs2.headI = '.' ∧ cs2 ≠ []
  let fracDigits := if hasDot then cs2.tail.takeWhile Char.isDigit else []
  let cs3 := if hasDot then cs2.tail.dropWhile Char.isDigit else cs2
  if intDigits.isEmpty && fracDigits.isEmpty then none
  else
    let mantissa : ℚ := sgn * ((digitsVal intDigits : ℚ) + fracVal fracDigits)
    let hasExp := (cs3.headI = 'e' ∨ cs3.headI = 'E') ∧ cs3 ≠ []
    let rest := if hasExp then cs3.tail else []
    let eSgn : ℤ := if rest.headI = '-' then -1 else 1
    let rest2 := if rest.headI = '-' ∨ rest.headI = '+' then rest.tail else rest
    let eDigits := rest2.takeWhile Char.isDigit
    let expVal : ℤ :=
      if hasExp ∧ ¬ eDigits.isEmpty then eSgn * (digitsVal eDigits : ℤ) else 0
    some (mantissa * (10 : ℚ) ^ expVal)

/-- A parameter separator: whitespace or comma (the `/[\s,]+/` splitter). -/
def isSep (c : Char) : Bool := c.isWhitespace || c = ','

/-- Splits a char list into maximal separator-free chunks. -/
def splitChunksAux : List Char → List Char → List (List Char)
  | [], acc => if acc.isEmpty then [] else [acc.reverse]
  | c :: rest, acc =>
    if isSep c then
      if acc.isEmpty then splitChunksAux rest []
      else acc.reverse :: splitChunksAux rest []
    else splitChunksAux rest (c :: acc)

/-- Source: `parseParams`: split on whitespace/commas, parse each token as a float and
drop the unparsable ones (the NaN filter). -/
def parseParams (cs : List Char) : List ℚ :=
  (splitChunksAux cs []).filterMap jsParseFloat

/-- Scanner for the command regex `([a-zA-Z])([^a-zA-Z]*)`: returns the
pending non-letter prefix and the (letter, parameter-text) matches. -/
def tokAux : List Char → List Char × List (Char × List Char)
  | [] => ([], [])
  | c :: rest =>
    let r := tokAux rest
    if c.isAlpha then ([], (c, r.1) :: r.2) else (c :: r.1, r.2)

/-- All (command-letter, parameter-text) matches of the input. -/
def tokenize (cs : List Char) : List (Char × List Char) := (tokAux cs).2

/-- The `paramCounts` arity table. -/
def paramCounts (c : Char) : Option ℕ :=
  if c = 'M' then some 2
  else if c = 'L' then some 2
  else if c = 'H' then some 1
  else if c = 'V' then some 1
  else if c = 'C' then some 6
  else if c = 'S' then some 4
  else if c = 'Q' then some 4
  else if c = 'T' then some 2
  else if c = 'A' then some 7
  else if c = 'Z' then some 0
  else none

/-- Coordinate-pair loop of the generic branch: resolve each pair against the
(unchanging) current point when relative, then jitter both coordinates. -/
def genCoords (rng : ℕ → ℝ) (jitter : ℝ) (relative : Bool) (cur : Point) :
    List ℚ → ℕ → List ℝ
  | x :: y :: rest, k =>
    let xa : ℝ := if relative then (x : ℝ) + cur.x else (x : ℝ)
    let ya : ℝ := if relative then (y : ℝ) + cur.y else (y : ℝ)
    distortCoord rng jitter k xa :: distortCoord rng jitter (k + 1) ya ::
      genCoords rng jitter relative cur rest (k + 2)
  | _, _ => []

/-- Generic branch for `M`, `C`, `S`, `Q`, `T`: emit the uppercased letter with
all jittered coordinates and update the current point (and, for `M`, the
subpath start) to the last emitted pair. -/
def stepGen (rng : ℕ → ℝ) (jitter : ℝ) (upper : Char) (relative : Bool)
    (g : List ℚ) (s : PState) : List OutCmd × PState :=
  let coords := genCoords rng jitter relative s.currentPoint g s.rand
  let lastPair : Point :=
    ⟨coords.getD (coords.length - 2) 0, coords.getD (coords.length - 1) 0⟩
  ([OutCmd.gen upper coords],
    { currentPoint :=
        if upper = 'M' ∨ upper = 'L' ∨ upper = 'T' ∨ upper = 'C' ∨ upper = 'S' ∨ upper = 'Q'
        then lastPair else s.currentPoint
      subpathStart := if upper = 'M' then lastPair else s.subpathStart
      rand := s.rand + g.length })

/-- Source: `L` branch: convert to a cubic via `lineToBezier`, jitter control points
and endpoint, and set the current point to the un-jittered endpoint. -/
def stepL (rng : ℕ → ℝ) (jitter : ℝ) (relative : Bool) (g : List ℚ) (s : PState) :
    List OutCmd × PState :=
  let x : ℝ := if relative then (g.getD 0 0 : ℝ) + s.currentPoint.x else (g.getD 0 0 : ℝ)
  let y : ℝ := if relative then (g.getD 1 0 : ℝ) + s.currentPoint.y else (g.getD 1 0 : ℝ)
  let bezier := lineToBezier s.currentPoint ⟨x, y⟩
  ([OutCmd.cubic (distortCoord rng jitter s.rand bezier.p1.x)
      (distortCoord rng jitter (s.rand + 1) bezier.p1.y)
      (distortCoord rng jitter (s.rand + 2) bezier.p2.x)
      (distortCoord rng jitter (s.rand + 3) bezier.p2.y)
      (distortCoord rng jitter (s.rand + 4) bezier.p3.x)
      (distortCoord rng jitter (s.rand + 5) bezier.p3.y)],
    { currentPoint := ⟨x, y⟩, subpathStart := s.subpathStart, rand := s.rand + 6 })

/-- Source: `H` branch: emit an `L` command with jittered coordinates; only the
(un-jittered) x of the current point changes. -/
def stepH (rng : ℕ → ℝ) (jitter : ℝ) (relative : Bool) (g : List ℚ) (s : PState) :
    List OutCmd × PState :=
  let x : ℝ := if relative then (g.getD 0 0 : ℝ) + s.currentPoint.x else (g.getD 0 0 : ℝ)
  ([OutCmd.line (distortCoord rng jitter s.rand x)
      (distortCoord rng jitter (s.rand + 1) s.currentPoint.y)],
    { currentPoint := ⟨x, s.currentPoint.y⟩, subpathStart := s.subpathStart
      rand := s.rand + 2 })

/-- Source: `V` branch: emit an `L` command with jittered coordinates (the y jitter is
drawn first, as in the source); only the (un-jittered) y changes. -/
def stepV (rng : ℕ → ℝ) (jitter : ℝ) (relative : Bool) (g : List ℚ) (s : PState) :
    List OutCmd × PState :=
  let y : ℝ := if relative then (g.getD 0 0 : ℝ) + s.currentPoint.y else (g.getD 0 0 : ℝ)
  let dy := distortCoord rng jitter s.rand y
  ([OutCmd.line (distortCoord rng jitter (s.rand + 1) s.currentPoint.x) dy],
    { currentPoint := ⟨s.currentPoint.x, y⟩, subpathStart := s.subpathStart
      rand := s.rand + 2 })

/-- The `beziers.forEach` loop of the `A` branch: one jittered `C` command per
segment, current point set to the un-jittered `p3`. -/
def stepAFold (rng : ℕ → ℝ) (jitter : ℝ) : List Seg → PState → List OutCmd × PState
  | [], s => ([], s)
  | b :: rest, s =>
    let c := OutCmd.cubic (distortCoord rng jitter s.rand b.p1.x)
      (distortCoord rng jitter (s.rand + 1) b.p1.y)
      (distortCoord rng jitter (s.rand + 2) b.p2.x)
      (distortCoord rng jitter (s.rand + 3) b.p2.y)
      (distortCoord rng jitter (s.rand + 4) b.p3.x)
      (distortCoord rng jitter (s.rand + 5) b.p3.y)
    let r := stepAFold rng jitter rest
      { currentPoint := b.p3, subpathStart := s.subpathStart, rand := s.rand + 6 }
    (c :: r.1, r.2)

/-- Source: `A` branch: resolve the endpoint, convert via `arcToCubicBeziers`
(numeric flags taken as booleans by JS truthiness) and emit the segments. -/
def stepA (rng : ℕ → ℝ) (jitter : ℝ) (relative : Bool) (g : List ℚ) (s : PState) :
    List OutCmd × PState :=
  let x : ℝ := if relative then (g.getD 5 0 : ℝ) + s.currentPoint.x else (g.getD 5 0 : ℝ)
  let y : ℝ := if relative then (g.getD 6 0 : ℝ) + s.currentPoint.y else (g.getD 6 0 : ℝ)
  stepAFold rng jitter
    (arcToCubicBeziers
      { px := s.currentPoint.x, py := s.currentPoint.y, cx := x, cy := y
        rx := (g.getD 0 0 : ℝ), ry := (g.getD 1 0 : ℝ)
        xAxisRotation := (g.getD 2 0 : ℝ)
        largeArcFlag := decide (g.getD 3 0 ≠ 0)
        sweepFlag := decide (g.getD 4 0 ≠ 0) }) s

/-- Dispatch for one complete parameter group of a non-`Z` known command. -/
def runCmdStep (rng : ℕ → ℝ) (jitter : ℝ) (upper : Char) (relative : Bool)
    (g : List ℚ) (s : PState) : List OutCmd × PState :=
  if upper = 'A' then stepA rng jitter relative g s
  else if upper = 'H' then stepH rng jitter relative g s
  else if upper = 'V' then stepV rng jitter relative g s
  else if upper = 'L' then stepL rng jitter relative g s
  else stepGen rng jitter upper relative g s

/-- The `while (i < params.length)` loop: process one arity-sized group at a
time; a trailing group shorter than the arity is dropped without output. -/
def runGroups (rng : ℕ → ℝ) (jitter : ℝ) (upper : Char) (relative : Bool) (k : ℕ)
    (ps : List ℚ) (s : PState) : List OutCmd × PState :=
  if k = 0 ∨ ps.length < k then ([], s)
  else
    let r1 := runCmdStep rng jitter upper relative (ps.take k) s
    let r2 := runGroups rng jitter upper relative k (ps.drop k) r1.2
    (r1.1 ++ r2.1, r2.2)
termination_by ps.length
decreasing_by
  simp only [List.length_drop]
  omega

/-- One (command-letter, parameter-text) token: unknown letters pass through
verbatim; `Z` emits `Z` and resets the current point to the subpath start;
known letters run the grouped-parameter loop. -/
def runToken (rng : ℕ → ℝ) (jitter : ℝ) (s : PState) (tok : Char × List Char) :
    List OutCmd × PState :=
  let command := tok.1
  let upper := command.toUpper
  let relative := command ≠ upper
  match paramCounts upper with
  | none => ([OutCmd.raw (command :: tok.2)], s)
  | some k =>
    if upper = 'Z' then
      ([OutCmd.close],
        { currentPoint := s.subpathStart, subpathStart := s.subpathStart, rand := s.rand })
    else runGroups rng jitter upper relative k (parseParams tok.2) s

/-- Folds `runToken` over all tokens, accumulating the rebuilt path. -/
def runTokens (rng : ℕ → ℝ) (jitter : ℝ) : List (Char × List Char) → PState →
    List OutCmd × PState
  | [], s => ([], s)
  | t :: ts, s =>
    let r1 := runToken rng jitter s t
    let r2 := runTokens rng jitter ts r1.2
    (r1.1 ++ r2.1, r2.2)

/-- Fresh interpreter state (current point and subpath start at the origin)
with the random stream at position `k`. -/
def initState (k : ℕ) : PState :=
  { currentPoint := ⟨0, 0⟩, subpathStart := ⟨0, 0⟩, rand := k }

/-- Structured output of `distortPath`: the emitted command list and the final
interpreter state. -/
def distortCmds (d : String) (jitter : ℝ) (rng : ℕ → ℝ) (s0 : PState) :
    List OutCmd × PState :=
  runTokens rng jitter (tokenize d.data) s0

/-- Renders the coordinate pairs of a generic command (`${x} ${y} ` each). -/
def renderPairs (f : ℝ → String) : List ℝ → String
  | x :: y :: rest => f x ++ " " ++ f y ++ " " ++ renderPairs f rest
  | _ => ""

/-- Renders one emitted command exactly as the source appends it to
`rebuiltPath`; `f` abstracts the host language's number-to-string conversion. -/
def renderCmd (f : ℝ → String) : OutCmd → String
  | OutCmd.gen c coords => String.singleton c ++ " " ++ renderPairs f coords
  | OutCmd.cubic c1x c1y c2x c2y ex ey =>
      "C " ++ f c1x ++ " " ++ f c1y ++ " " ++ f c2x ++ " " ++ f c2y ++ " " ++
        f ex ++ " " ++ f ey ++ " "
  | OutCmd.line x y => "L " ++ f x ++ " " ++ f y ++ " "
  | OutCmd.close => "Z "
  | OutCmd.raw cs => String.mk cs

/-- The host language's `.trim()`: strip leading and trailing whitespace. -/
def jsTrim (cs : List Char) : List Char :=
  ((cs.dropWhile Char.isWhitespace).reverse.dropWhile Char.isWhitespace).reverse

/-- Source: `distortPath(d, jitter)`: the rebuilt path string, trimmed. -/
def distortPath (f : ℝ → String) (d : String) (jitter : ℝ) (rng : ℕ → ℝ) : String :=
  String.mk (jsTrim
    (String.join (((distortCmds d jitter rng (initState 0)).1).map (renderCmd f))).data)

/-- The options record of `makeDraftyPath`. -/
structure DraftyOptions where
  jitter : Option ℝ
  repeats : Option ℕ

/-- Functional update of an attribute map (one `attrsCopy.key = val` assignment
on the spread copy `{...attrs}`). -/
def updAttr (m : String → Option String) (key v : String) : String → Option String :=
  fun x => if x = key then some v else m x

/-- The per-pass attribute overrides: pass 0 is the fill layer (fallback fill,
stroke forced to none), later passes are stroke-only outlines. -/
def passAttrs (attrs : String → Option String) (i : ℕ) : String → Option String :=
  if i = 0 then
    let a1 := if attrs ("fill") = none then updAttr attrs ("fill") ("black") else attrs
    updAttr a1 ("stroke") ("none")
  else
    let a1 := updAttr attrs ("fill") ("none")
    if a1 ("stroke") = none then updAttr a1 ("stroke") ("black") else a1

/-- The `for (i = 0; i < repeats + 1; i++)` loop of the function returned by
`makeDraftyPath`: `n` passes remain, `i` is the pass index, `k` the position of
the shared random stream; produces the ordered draw calls
`(distortedD, attrsCopy)` handed to the draw collaborator. -/
def draftyLoop (f : ℝ → String) (rng : ℕ → ℝ) (jitter : ℝ) (d : String)
    (attrs : String → Option String) :
    ℕ → ℕ → ℕ → List (String × (String → Option String))
  | 0, _, _ => []
  | n + 1, i, k =>
    let r := distortCmds d jitter rng (initState k)
    (String.mk (jsTrim (String.join (r.1.map (renderCmd f))).data), passAttrs attrs i) ::
      draftyLoop f rng jitter d attrs n (i + 1) r.2.rand

/-- Source: `makeDraftyPath(drawPathFn, options)`: the draw collaborator is modelled by
collecting, in order, the draw calls one invocation of the returned function
issues. -/
def makeDraftyPath (f : ℝ → String) (rng : ℕ → ℝ) (options : DraftyOptions)
    (d : String) (attrs : String → Option String) :
    List (String × (String → Option String)) :=
  let jitter := options.jitter.getD 1.2
  let repeats := options.repeats.getD 3
  draftyLoop f rng jitter d attrs (repeats + 1) 0 0

/-- Is this emitted command a Move, Cubic, or Close — the only kinds the
specification's global invariant allows? -/
def isMCZ : OutCmd → Bool
  | OutCmd.gen u _ => u = 'M'
  | OutCmd.cubic _ _ _ _ _ _ => true
  | OutCmd.close => true
  | _ => false

/-- What the interpreter actually emits: generic re-emissions only under the
letters `M`, `C`, `S`, `Q`, `T`; `line`/`cubic`/`close` outputs; and verbatim
pass-through only for letters outside the arity table. -/
def validOut : OutCmd → Prop
  | OutCmd.gen u _ => u = 'M' ∨ u = 'C' ∨ u = 'S' ∨ u = 'Q' ∨ u = 'T'
  | OutCmd.raw cs => paramCounts (cs.headI.toUpper) = none
  | _ => True

/-- A number-to-string table matching what the host language prints for the
four values occurring in the concrete scenario (IEEE-754 shortest
representations of `10/3` and `20/3`). -/
def jsNumRepr : ℝ → String := fun x =>
  if x = 0 then "0"
  else if x = 10 then "10"
  else if x = 10 / 3 then "3.3333333333333335"
  else if x = 20 / 3 then "6.666666666666667"
  else ""

/-- Element `j` of `(List.range n).map f`, fetched with a default. -/
theorem getD_map_range {α : Type} [Inhabited α] (f : ℕ → α) {j n : ℕ} (h : j < n) :
    ((List.range n).map f).getD j default = f j := by
  simp [List.getD, List.getElem?_map, List.getElem?_range, h]

/-- Claim C8: for every cubic Bézier and every `N ∈ {1, 2, 5}`, the `j`-th sub-curve
produced by `splitCubicBezier` starts at the original curve evaluated at `j/N` and
ends at the original curve evaluated at `(j+1)/N` (within `1e-6`, in fact exactly),
and its two control points are the original curve evaluated at the one-third and
two-third points of the sub-interval `[j/N, (j+1)/N]`. -/
theorem splitCubicBezier_endpoint_law (p0 p1 p2 p3 : Point) (N : ℕ)
    (hN : N = 1 ∨ N = 2 ∨ N = 5) (j : ℕ) (hj : j < N) :
    |((splitCubicBezier p0 p1 p2 p3 N).getD j default).p0.x -
        (cubicBezierPoint p0 p1 p2 p3 ((j : ℝ) / N)).x| ≤ 1e-6 ∧
    |((splitCubicBezier p0 p1 p2 p3 N).getD j default).p0.y -
        (cubicBezierPoint p0 p1 p2 p3 ((j : ℝ) / N)).y| ≤ 1e-6 ∧
    |((splitCubicBezier p0 p1 p2 p3 N).getD j default).p3.x -
        (cubicBezierPoint p0 p1 p2 p3 (((j : ℝ) + 1) / N)).x| ≤ 1e-6 ∧
    |((splitCubicBezier p0 p1 p2 p3 N).getD j default).p3.y -
        (cubicBezierPoint p0 p1 p2 p3 (((j : ℝ) + 1) / N)).y| ≤ 1e-6 ∧
    ((splitCubicBezier p0 p1 p2 p3 N).getD j default).p1 =
        cubicBezierPoint p0 p1 p2 p3
          ((j : ℝ) / N + (((j : ℝ) + 1) / N - (j : ℝ) / N) / 3) ∧
    ((splitCubicBezier p0 p1 p2 p3 N).getD j default).p2 =
        cubicBezierPoint p0 p1 p2 p3
          ((j : ℝ) / N + (2 * (((j : ℝ) + 1) / N - (j : ℝ) / N)) / 3) := by
  clear hN
  have hget :
      (splitCubicBezier p0 p1 p2 p3 N).getD j default =
        { p0 := cubicBezierPoint p0 p1 p2 p3 (((j : ℝ) + 1 - 1) / N)
          p1 := cubicBezierPoint p0 p1 p2 p3
            (((j : ℝ) + 1 - 1) / N +
              (((j : ℝ) + 1) / N - ((j : ℝ) + 1 - 1) / N) / 3)
          p2 := cubicBezierPoint p0 p1 p2 p3
            (((j : ℝ) + 1 - 1) / N +
              (2 * (((j : ℝ) + 1) / N - ((j : ℝ) + 1 - 1) / N)) / 3)
          p3 := cubicBezierPoint p0 p1 p2 p3 (((j : ℝ) + 1) / N) } := by
    unfold splitCubicBezier
    rw [getD_map_range _ hj]
    push_cast
    rfl
  have harg : ((j : ℝ) + 1 - 1) / N = (j : ℝ) / N := by ring_nf
  rw [hget, harg]
  refine ⟨?_, ?_, ?_, ?_, rfl, rfl⟩ <;> simp <;> norm_num

/-- Witness for `splitCubicBezier_endpoint_law` at `N = 2`, `j = 1` on a concrete curve. -/
theorem splitCubicBezier_endpoint_law_witness :
    ((2 : ℕ) = 1 ∨ (2 : ℕ) = 2 ∨ (2 : ℕ) = 5) ∧ (1 : ℕ) < 2 ∧
    |((splitCubicBezier ⟨0, 0⟩ ⟨1, 2⟩ ⟨3, 4⟩ ⟨5, 0⟩ 2).getD 1 default).p0.x -
        (cubicBezierPoint ⟨0, 0⟩ ⟨1, 2⟩ ⟨3, 4⟩ ⟨5, 0⟩
          (((1 : ℕ) : ℝ) / ((2 : ℕ) : ℝ))).x| ≤ 1e-6 :=
  ⟨Or.inr (Or.inl rfl), by norm_num,
    (splitCubicBezier_endpoint_law ⟨0, 0⟩ ⟨1, 2⟩ ⟨3, 4⟩ ⟨5, 0⟩ 2
      (Or.inr (Or.inl rfl)) 1 (by norm_num)).1⟩

/-- Last element of `(List.range n).map f`, fetched with a default. -/
theorem getLastI_map_range {α : Type} [Inhabited α] (f : ℕ → α) {n : ℕ} (h : 0 < n) :
    ((List.range n).map f).getLastI = f (n - 1) := by
  obtain ⟨m, rfl⟩ := Nat.exists_eq_succ_of_ne_zero h.ne'
  rw [List.range_succ, List.map_append, List.getLastI_eq_getLast?]
  simp

/-- First element of `(List.range n).map f`, fetched with a default. -/
theorem headI_map_range {α : Type} [Inhabited α] (f : ℕ → α) {n : ℕ} (h : 0 < n) :
    ((List.range n).map f).headI = f 0 := by
  obtain ⟨m, rfl⟩ := Nat.exists_eq_succ_of_ne_zero h.ne'
  rw [List.range_succ_eq_map]
  simp

theorem atan2_zero_neg {x : ℝ} (hx : x < 0) : atan2 0 x = Real.pi := by
  have hx' : (⟨x, 0⟩ : ℂ) = ((x : ℝ) : ℂ) := by
    apply Complex.ext <;> simp
  rw [atan2, hx', Complex.arg_ofReal_of_neg hx]

theorem atan2_zero_nonneg {x : ℝ} (hx : 0 ≤ x) : atan2 0 x = 0 := by
  have hx' : (⟨x, 0⟩ : ℂ) = ((x : ℝ) : ℂ) := by
    apply Complex.ext <;> simp
  rw [atan2, hx', Complex.arg_ofReal_of_nonneg hx]

/-- Source: `cos`/`sin` recover the arguments of `atan2` on the unit circle. -/
theorem atan2_cos_sin {x y : ℝ} (h : x ^ 2 + y ^ 2 = 1) :
    Real.cos (atan2 y x) = x ∧ Real.sin (atan2 y x) = y := by
  have hz : (⟨x, y⟩ : ℂ) ≠ 0 := by
    intro h0
    rw [Complex.ext_iff] at h0
    simp only [Complex.zero_re, Complex.zero_im] at h0
    rw [h0.1, h0.2] at h
    norm_num at h
  have habs : Complex.abs ⟨x, y⟩ = 1 := by
    rw [Complex.abs_apply, Complex.normSq_mk, show x * x + y * y = 1 by nlinarith]
    exact Real.sqrt_one
  refine ⟨?_, ?_⟩
  · have hc := Complex.cos_arg hz
    rw [habs] at hc
    simpa [atan2] using hc
  · have hs := Complex.sin_arg (⟨x, y⟩ : ℂ)
    rw [habs] at hs
    simpa [atan2] using hs

theorem arcBug_x1p : Arc.x1p arcBug = -5 := by
  simp [Arc.x1p, Arc.cosPhi, Arc.sinPhi, Arc.dx, Arc.dy, arcBug, toRadians]
  norm_num

theorem arcBug_y1p : Arc.y1p arcBug = 0 := by
  simp [Arc.y1p, Arc.cosPhi, Arc.sinPhi, Arc.dx, Arc.dy, arcBug, toRadians]

theorem arcBug_lambda : Arc.lambda arcBug = 25 := by
  rw [Arc.lambda, Arc.x1p2, Arc.y1p2, arcBug_x1p, arcBug_y1p]
  norm_num [arcBug]

theorem arcBug_rx2 : Arc.rx2 arcBug = 25 := by
  rw [Arc.rx2, if_pos (by rw [arcBug_lambda]; norm_num), arcBug_lambda]
  rw [mul_pow, Real.sq_sqrt (by norm_num : (25 : ℝ) ≥ 0)]
  norm_num [arcBug]

theorem arcBug_ry2 : Arc.ry2 arcBug = 25 := by
  rw [Arc.ry2, if_pos (by rw [arcBug_lambda]; norm_num), arcBug_lambda]
  rw [mul_pow, Real.sq_sqrt (by norm_num : (25 : ℝ) ≥ 0)]
  norm_num [arcBug]

theorem arcBug_coef : Arc.coef arcBug = 0 := by
  rw [Arc.coef, arcBug_rx2, arcBug_ry2, Arc.x1p2, Arc.y1p2, arcBug_x1p, arcBug_y1p]
  norm_num

theorem arcBug_cxp : Arc.cxp arcBug = 0 := by
  rw [Arc.cxp, arcBug_coef]
  norm_num

theorem arcBug_cyp : Arc.cyp arcBug = 0 := by
  rw [Arc.cyp, arcBug_coef]
  norm_num

theorem arcBug_cxCenter : Arc.cxCenter arcBug = 5 := by
  rw [Arc.cxCenter, arcBug_cxp, arcBug_cyp]
  norm_num [arcBug]

theorem arcBug_cyCenter : Arc.cyCenter arcBug = 0 := by
  rw [Arc.cyCenter, arcBug_cxp, arcBug_cyp]
  norm_num [arcBug]

theorem arcBug_startAngle : Arc.startAngle arcBug = Real.pi := by
  rw [Arc.startAngle, arcBug_cxp, arcBug_cyp, arcBug_x1p, arcBug_y1p]
  have hy : ((0 : ℝ) - 0) / arcBug.ry = 0 := by norm_num [arcBug]
  have hx : ((-5 : ℝ) - 0) / arcBug.rx = -5 := by norm_num [arcBug]
  rw [hy, hx]
  exact atan2_zero_neg (by norm_num)

theorem arcBug_endAngle : Arc.endAngle arcBug = 0 := by
  rw [Arc.endAngle, arcBug_cxp, arcBug_cyp, arcBug_x1p, arcBug_y1p]
  have hy : (-(0 : ℝ) - 0) / arcBug.ry = 0 := by norm_num [arcBug]
  have hx : (-(-5 : ℝ) - 0) / arcBug.rx = 5 := by norm_num [arcBug]
  rw [hy, hx]
  exact atan2_zero_nonneg (by norm_num)

theorem arcBug_deltaAngle : Arc.deltaAngle arcBug = Real.pi := by
  have h0 : Arc.deltaAngle0 arcBug = -Real.pi := by
    rw [Arc.deltaAngle0, arcBug_endAngle, arcBug_startAngle]
    ring
  have h1 : Arc.deltaAngle1 arcBug = -Real.pi := by
    rw [Arc.deltaAngle1, if_neg, h0]
    rw [show arcBug.sweepFlag = true from rfl]
    simp
  rw [Arc.deltaAngle, if_pos, h1]
  · ring
  · rw [h1, show arcBug.sweepFlag = true from rfl]
    refine ⟨rfl, ?_⟩
    simpa using Real.pi_pos

theorem arcBug_segments : Arc.segments arcBug = 12 := by
  rw [Arc.segments, arcBug_deltaAngle, maxSegmentAngle,
    show Real.pi / (Real.pi / 12) = 12 by
      field_simp]
  norm_num

theorem arcBug_cosPhi : Arc.cosPhi arcBug = 1 := by
  simp [Arc.cosPhi, arcBug, toRadians]

theorem arcBug_sinPhi : Arc.sinPhi arcBug = 0 := by
  simp [Arc.sinPhi, arcBug, toRadians]

theorem arcBug_delta : Arc.delta arcBug = Real.pi / 12 := by
  rw [Arc.delta, arcBug_deltaAngle, arcBug_segments]
  norm_num

theorem arcBug_segAt11_p3_x : (Arc.segAt arcBug 11).p3.x = 6 := by
  simp only [Arc.segAt]
  rw [arcBug_delta, arcBug_startAngle, arcBug_cxCenter, arcBug_cosPhi, arcBug_sinPhi]
  have hth : Real.pi + ((11 : ℕ) : ℝ) * (Real.pi / 12) + Real.pi / 12 = 2 * Real.pi := by
    push_cast
    ring
  rw [hth, Real.cos_two_pi, Real.sin_two_pi]
  norm_num [arcBug]

theorem arcBug_segAt0_p0_x : (Arc.segAt arcBug 0).p0.x = 4 := by
  simp only [Arc.segAt]
  rw [arcBug_delta, arcBug_startAngle, arcBug_cxCenter, arcBug_cosPhi, arcBug_sinPhi]
  have hth : Real.pi + ((0 : ℕ) : ℝ) * (Real.pi / 12) = Real.pi := by
    push_cast
    ring
  rw [hth, Real.cos_pi, Real.sin_pi]
  norm_num [arcBug]

/-- Claim C7: a (trailing) command group with fewer remaining numeric parameters
than the command's arity is dropped: no output is emitted and the interpreter
state — current point, subpath start, random position — is left unchanged. -/
theorem incomplete_command_dropped (rng : ℕ → ℝ) (jitter : ℝ) (upper : Char)
    (relative : Bool) (k : ℕ) (ps : List ℚ) (s : PState)
    (harity : paramCounts upper = some k) (hk : 0 < k) (hlen : ps.length < k) :
    runGroups rng jitter upper relative k ps s = ([], s) := by
  clear harity hk
  rw [runGroups, if_pos (Or.inr hlen)]

/-- Witness for `incomplete_command_dropped`: the malformed input `L10`
(one parameter where LineTo needs two). -/
theorem incomplete_command_dropped_witness :
    paramCounts ('L') = some 2 ∧ (0 : ℕ) < 2 ∧ ([(10 : ℚ)]).length < 2 ∧
    runGroups (fun _ => 0) 1 ('L') false 2 [(10 : ℚ)] (initState 0) =
      ([], initState 0) :=
  ⟨by decide, by decide, by decide,
    incomplete_command_dropped (fun _ => 0) 1 ('L') false 2 [(10 : ℚ)] (initState 0)
      (by decide) (by decide) (by decide)⟩

theorem draftyLoop_length (f : ℝ → String) (rng : ℕ → ℝ) (jitter : ℝ) (d : String)
    (attrs : String → Option String) :
    ∀ n i k, (draftyLoop f rng jitter d attrs n i k).length = n := by
  intro n
  induction n with
  | zero => intro i k; rfl
  | succ m ih =>
    intro i k
    rw [draftyLoop]
    simp [ih]

theorem draftyLoop_getD_snd (f : ℝ → String) (rng : ℕ → ℝ) (jitter : ℝ) (d : String)
    (attrs : String → Option String) :
    ∀ n i0 k i, i < n →
      ((draftyLoop f rng jitter d attrs n i0 k).getD i default).2 =
        passAttrs attrs (i0 + i) := by
  intro n
  induction n with
  | zero => intro i0 k i h; omega
  | succ m ih =>
    intro i0 k i h
    rw [draftyLoop]
    match i with
    | 0 => simp
    | j + 1 =>
      have hj : j < m := by omega
      have := ih (i0 + 1) ((distortCmds d jitter rng (initState k)).2.rand) j hj
      simpa [Nat.add_assoc, Nat.add_comm 1 j] using this

theorem passAttrs_stroke_zero (attrs : String → Option String) :
    passAttrs attrs 0 ("stroke") = some ("none") := by
  rw [passAttrs, if_pos rfl]
  split_ifs <;> simp [updAttr]

theorem passAttrs_fill_pos (attrs : String → Option String) (i : ℕ) (hi : i ≠ 0) :
    passAttrs attrs i ("fill") = some ("none") := by
  rw [passAttrs, if_neg hi]
  split_ifs with h
  · rw [updAttr]
    rw [if_neg (by decide : ¬ ("fill" : String) = "stroke")]
    simp [updAttr]
  · simp [updAttr]

/-- Claim C6: one invocation of the function returned by `makeDraftyPath` with
`repeats = r` issues exactly `r + 1` draw calls, in order; call 0 (the fill
layer) carries `stroke="none"` and calls `1..r` carry `fill="none"`. -/
theorem layer_count (f : ℝ → String) (rng : ℕ → ℝ) (options : DraftyOptions)
    (d : String) (attrs : String → Option String) :
    (makeDraftyPath f rng options d attrs).length = options.repeats.getD 3 + 1 ∧
    ((makeDraftyPath f rng options d attrs).getD 0 default).2 ("stroke") =
      some ("none") ∧
    ∀ i : ℕ, 1 ≤ i → i ≤ options.repeats.getD 3 →
      ((makeDraftyPath f rng options d attrs).getD i default).2 ("fill") =
        some ("none") := by
  refine ⟨?_, ?_, ?_⟩
  · rw [makeDraftyPath]
    exact draftyLoop_length f rng _ d attrs _ 0 0
  · rw [makeDraftyPath, draftyLoop_getD_snd f rng _ d attrs _ 0 0 0 (by omega)]
    exact passAttrs_stroke_zero attrs
  · intro i h1 h2
    rw [makeDraftyPath, draftyLoop_getD_snd f rng _ d attrs _ 0 0 i (by omega)]
    exact passAttrs_fill_pos attrs (0 + i) (by omega)

/-- Witness for `layer_count` with `repeats = 2`, checking draw call 1. -/
theorem layer_count_witness :
    (1 : ℕ) ≤ 1 ∧ (1 : ℕ) ≤ (DraftyOptions.mk none (some 2)).repeats.getD 3 ∧
    ((makeDraftyPath (fun _ => "") (fun _ => 0) (DraftyOptions.mk none (some 2)) ""
        (fun _ => none)).getD 1 default).2 ("fill") = some ("none") :=
  ⟨le_refl 1, by decide,
    (layer_count (fun _ => "") (fun _ => 0) (DraftyOptions.mk none (some 2)) ""
      (fun _ => none)).2.2 1 (le_refl 1) (by decide)⟩

theorem draftyLoop_map_snd (f : ℝ → String) (rng : ℕ → ℝ) (jitter : ℝ) (d : String)
    (attrs : String → Option String) :
    ∀ n i0 k, (draftyLoop f rng jitter d attrs n i0 k).map Prod.snd =
      (List.range' i0 n).map (passAttrs attrs) := by
  intro n
  induction n with
  | zero => intro i0 k; rfl
  | succ m ih =>
    intro i0 k
    rw [draftyLoop, List.range'_succ]
    simp [ih]

/-- Claim C10: an invocation of the function returned by `makeDraftyPath` never
mutates the caller's attribute map: every pass's attribute map is computed
afresh from the original `attrs` (pass `i` receives `passAttrs attrs i`), and
the overrides touch only the `fill` and `stroke` keys — on every other key each
pass's map agrees with the caller's map. -/
theorem attrs_not_mutated (f : ℝ → String) (rng : ℕ → ℝ) (options : DraftyOptions)
    (d : String) (attrs : String → Option String) :
    (makeDraftyPath f rng options d attrs).map Prod.snd =
      (List.range (options.repeats.getD 3 + 1)).map (passAttrs attrs) ∧
    ∀ (i : ℕ) (key : String), key ≠ "fill" → key ≠ "stroke" →
      passAttrs attrs i key = attrs key := by
  constructor
  · rw [makeDraftyPath, draftyLoop_map_snd, List.range_eq_range']
  · intro i key hf hs
    rw [passAttrs]
    by_cases h0 : i = 0
    · rw [if_pos h0]
      split_ifs <;> simp [updAttr, hf, hs]
    · rw [if_neg h0]
      split_ifs <;> simp [updAttr, hf, hs]

/-- Witness for `attrs_not_mutated`: the `opacity` key survives every pass. -/
theorem attrs_not_mutated_witness :
    ("opacity" : String) ≠ "fill" ∧ ("opacity" : String) ≠ "stroke" ∧
    passAttrs (fun x => if x = "opacity" then some ("1") else none) 1 ("opacity") =
      (fun x : String => if x = "opacity" then some ("1") else none) "opacity" :=
  ⟨by decide, by decide,
    (attrs_not_mutated (fun _ => "") (fun _ => 0) (DraftyOptions.mk none none) ""
      (fun x => if x = "opacity" then some ("1") else none)).2 1 "opacity"
      (by decide) (by decide)⟩

theorem stepAFold_currentPoint (rng : ℕ → ℝ) (jitter : ℝ) :
    ∀ (l : List Seg) (s : PState),
      (stepAFold rng jitter l s).2.currentPoint =
        l.foldl (fun c b => b.p3) s.currentPoint := by
  intro l
  induction l with
  | nil => intro s; rfl
  | cons b rest ih =>
    intro s
    rw [stepAFold]
    simp [ih]

/-- Claim C9: the current-point update rule depends on the command kind.  After
`M`, `C`, `S`, `Q`, `T` (processed by the generic branch) the tracked current
point is set to the jittered emitted coordinates — the `distortCoord` values of
the last resolved pair (and for `M` the subpath start too) — whereas after `L`,
`H`, `V`, `A` it is set to the un-jittered absolute endpoint (for `A`, the raw
`p3` of the last generated arc segment), no `distortCoord` applied. -/
theorem current_point_update_rule (rng : ℕ → ℝ) (jitter : ℝ) (rel : Bool) (s : PState) :
    (∀ a b : ℚ,
      (runCmdStep rng jitter ('M') rel [a, b] s).2.currentPoint =
        Point.mk
          (distortCoord rng jitter s.rand
            (if rel then (a : ℝ) + s.currentPoint.x else (a : ℝ)))
          (distortCoord rng jitter (s.rand + 1)
            (if rel then (b : ℝ) + s.currentPoint.y else (b : ℝ))) ∧
      (runCmdStep rng jitter ('M') rel [a, b] s).2.subpathStart =
        (runCmdStep rng jitter ('M') rel [a, b] s).2.currentPoint) ∧
    (∀ a b : ℚ,
      (runCmdStep rng jitter ('T') rel [a, b] s).2.currentPoint =
        Point.mk
          (distortCoord rng jitter s.rand
            (if rel then (a : ℝ) + s.currentPoint.x else (a : ℝ)))
          (distortCoord rng jitter (s.rand + 1)
            (if rel then (b : ℝ) + s.currentPoint.y else (b : ℝ))) ∧
      (runCmdStep rng jitter ('T') rel [a, b] s).2.subpathStart = s.subpathStart) ∧
    (∀ q1 q2 q3 q4 q5 q6 : ℚ,
      (runCmdStep rng jitter ('C') rel [q1, q2, q3, q4, q5, q6] s).2.currentPoint =
        Point.mk
          (distortCoord rng jitter (s.rand + 4)
            (if rel then (q5 : ℝ) + s.currentPoint.x else (q5 : ℝ)))
          (distortCoord rng jitter (s.rand + 5)
            (if rel then (q6 : ℝ) + s.currentPoint.y else (q6 : ℝ)))) ∧
    (∀ q1 q2 q3 q4 : ℚ,
      (runCmdStep rng jitter ('S') rel [q1, q2, q3, q4] s).2.currentPoint =
        Point.mk
          (distortCoord rng jitter (s.rand + 2)
            (if rel then (q3 : ℝ) + s.currentPoint.x else (q3 : ℝ)))
          (distortCoord rng jitter (s.rand + 3)
            (if rel then (q4 : ℝ) + s.currentPoint.y else (q4 : ℝ)))) ∧
    (∀ q1 q2 q3 q4 : ℚ,
      (runCmdStep rng jitter ('Q') rel [q1, q2, q3, q4] s).2.currentPoint =
        Point.mk
          (distortCoord rng jitter (s.rand + 2)
            (if rel then (q3 : ℝ) + s.currentPoint.x else (q3 : ℝ)))
          (distortCoord rng jitter (s.rand + 3)
            (if rel then (q4 : ℝ) + s.currentPoint.y else (q4 : ℝ)))) ∧
    (∀ a b : ℚ,
      (runCmdStep rng jitter ('L') rel [a, b] s).2.currentPoint =
        Point.mk (if rel then (a : ℝ) + s.currentPoint.x else (a : ℝ))
          (if rel then (b : ℝ) + s.currentPoint.y else (b : ℝ))) ∧
    (∀ a : ℚ,
      (runCmdStep rng jitter ('H') rel [a] s).2.currentPoint =
        Point.mk (if rel then (a : ℝ) + s.currentPoint.x else (a : ℝ))
          s.currentPoint.y) ∧
    (∀ a : ℚ,
      (runCmdStep rng jitter ('V') rel [a] s).2.currentPoint =
        Point.mk s.currentPoint.x
          (if rel then (a : ℝ) + s.currentPoint.y else (a : ℝ))) ∧
    (∀ q1 q2 q3 q4 q5 qx qy : ℚ,
      (runCmdStep rng jitter ('A') rel [q1, q2, q3, q4, q5, qx, qy] s).2.currentPoint =
        (arcToCubicBeziers
          (Arc.mk s.currentPoint.x s.currentPoint.y
            (if rel then (qx : ℝ) + s.currentPoint.x else (qx : ℝ))
            (if rel then (qy : ℝ) + s.currentPoint.y else (qy : ℝ))
            (q1 : ℝ) (q2 : ℝ) (q3 : ℝ)
            (decide (q4 ≠ 0)) (decide (q5 ≠ 0)))).foldl
          (fun c b => b.p3) s.currentPoint) := by
  refine ⟨?_, ?_, ?_, ?_, ?_, ?_, ?_, ?_, ?_⟩ <;>
    intros <;>
    simp [runCmdStep, stepGen, stepL, stepH, stepV, stepA, genCoords,
      stepAFold_currentPoint, List.getD] <;>
    norm_num

theorem distortCoord_zero (rng : ℕ → ℝ) (k : ℕ) (v : ℝ) :
    distortCoord rng 0 k v = v := by
  simp [distortCoord]

theorem genCoords_zero (rng₁ rng₂ : ℕ → ℝ) (rel : Bool) (cur : Point) :
    ∀ (ps : List ℚ) (k₁ k₂ : ℕ),
      genCoords rng₁ 0 rel cur ps k₁ = genCoords rng₂ 0 rel cur ps k₂
  | [], _, _ => rfl
  | [_], _, _ => rfl
  | x :: y :: rest, k₁, k₂ => by
    simp only [genCoords, distortCoord_zero]
    rw [genCoords_zero rng₁ rng₂ rel cur rest (k₁ + 2) (k₂ + 2)]

theorem stepAFold_zero (rng₁ rng₂ : ℕ → ℝ) :
    ∀ (l : List Seg) (s : PState), stepAFold rng₁ 0 l s = stepAFold rng₂ 0 l s := by
  intro l
  induction l with
  | nil => intro s; rfl
  | cons b rest ih =>
    intro s
    rw [stepAFold, stepAFold]
    simp only [distortCoord_zero, ih]

theorem runCmdStep_zero (rng₁ rng₂ : ℕ → ℝ) (upper : Char) (rel : Bool)
    (g : List ℚ) (s : PState) :
    runCmdStep rng₁ 0 upper rel g s = runCmdStep rng₂ 0 upper rel g s := by
  rw [runCmdStep, runCmdStep]
  split_ifs
  · rw [stepA, stepA, stepAFold_zero]
  · rw [stepH, stepH]
    simp only [distortCoord_zero]
  · rw [stepV, stepV]
    simp only [distortCoord_zero]
  · rw [stepL, stepL]
    simp only [distortCoord_zero]
  · rw [stepGen, stepGen, genCoords_zero rng₁ rng₂ rel s.currentPoint g s.rand s.rand]

theorem runGroups_zero (rng₁ rng₂ : ℕ → ℝ) (upper : Char) (rel : Bool) (k : ℕ) :
    ∀ (n : ℕ) (ps : List ℚ) (s : PState), ps.length ≤ n →
      runGroups rng₁ 0 upper rel k ps s = runGroups rng₂ 0 upper rel k ps s := by
  intro n
  induction n with
  | zero =>
    intro ps s h
    have hc : k = 0 ∨ ps.length < k := by omega
    rw [runGroups, if_pos hc, runGroups, if_pos hc]
  | succ m ih =>
    intro ps s h
    by_cases hc : k = 0 ∨ ps.length < k
    · rw [runGroups, if_pos hc, runGroups, if_pos hc]
    · rw [runGroups, if_neg hc, runGroups, if_neg hc]
      rw [runCmdStep_zero rng₁ rng₂ upper rel (ps.take k) s]
      have hrec : ∀ s' : PState,
          runGroups rng₁ 0 upper rel k (ps.drop k) s' =
            runGroups rng₂ 0 upper rel k (ps.drop k) s' :=
        fun s' => ih (ps.drop k) s' (by simp only [List.length_drop]; omega)
      simp only [hrec]

theorem runToken_zero (rng₁ rng₂ : ℕ → ℝ) (s : PState) (tok : Char × List Char) :
    runToken rng₁ 0 s tok = runToken rng₂ 0 s tok := by
  rw [runToken, runToken]
  cases hpc : paramCounts tok.1.toUpper with
  | none => rfl
  | some k =>
    simp only
    split_ifs
    · rfl
    · exact runGroups_zero rng₁ rng₂ _ _ k (parseParams tok.2).length _ s le_rfl

theorem runTokens_zero (rng₁ rng₂ : ℕ → ℝ) :
    ∀ (ts : List (Char × List Char)) (s : PState),
      runTokens rng₁ 0 ts s = runTokens rng₂ 0 ts s := by
  intro ts
  induction ts with
  | nil => intro s; rfl
  | cons t rest ih =>
    intro s
    rw [runTokens, runTokens, runToken_zero rng₁ rng₂ s t, ih]

/-- Claim C5: with jitter magnitude 0 the per-coordinate perturbation vanishes,
so two runs of the interpreter over the same input path — with arbitrary,
possibly different random streams — produce byte-identical output strings. -/
theorem zero_jitter_deterministic (f : ℝ → String) (d : String) (rng₁ rng₂ : ℕ → ℝ) :
    distortPath f d 0 rng₁ = distortPath f d 0 rng₂ := by
  rw [distortPath, distortPath, distortCmds, distortCmds,
    runTokens_zero rng₁ rng₂ (tokenize d.data) (initState 0)]

set_option maxHeartbeats 1000000 in
theorem paramCounts_letters (u : Char) (k : ℕ) (h : paramCounts u = some k) :
    u = 'M' ∨ u = 'L' ∨ u = 'H' ∨ u = 'V' ∨ u = 'C' ∨ u = 'S' ∨ u = 'Q' ∨
    u = 'T' ∨ u = 'A' ∨ u = 'Z' := by
  rw [paramCounts] at h
  split_ifs at h with h1 h2 h3 h4 h5 h6 h7 h8 h9 h10 <;> simp_all

theorem stepAFold_valid (rng : ℕ → ℝ) (jitter : ℝ) :
    ∀ (l : List Seg) (s : PState) (c : OutCmd),
      c ∈ (stepAFold rng jitter l s).1 → validOut c := by
  intro l
  induction l with
  | nil =>
    intro s c hc
    simp [stepAFold] at hc
  | cons b rest ih =>
    intro s c hc
    rw [stepAFold] at hc
    simp only [List.mem_cons] at hc
    rcases hc with rfl | hc
    · trivial
    · exact ih _ c hc

theorem runCmdStep_valid (rng : ℕ → ℝ) (jitter : ℝ) (upper : Char) (rel : Bool)
    (g : List ℚ) (s : PState)
    (hu : upper = 'M' ∨ upper = 'L' ∨ upper = 'H' ∨ upper = 'V' ∨ upper = 'C' ∨
      upper = 'S' ∨ upper = 'Q' ∨ upper = 'T' ∨ upper = 'A') :
    ∀ c ∈ (runCmdStep rng jitter upper rel g s).1, validOut c := by
  intro c hc
  rw [runCmdStep] at hc
  split_ifs at hc with hA hH hV hL
  · exact stepAFold_valid rng jitter _ s c hc
  · rw [stepH] at hc
    simp only [List.mem_singleton] at hc
    subst hc
    trivial
  · rw [stepV] at hc
    simp only [List.mem_singleton] at hc
    subst hc
    trivial
  · rw [stepL] at hc
    simp only [List.mem_singleton] at hc
    subst hc
    trivial
  · rw [stepGen] at hc
    simp only [List.mem_singleton] at hc
    subst hc
    rcases hu with rfl | rfl | rfl | rfl | rfl | rfl | rfl | rfl | rfl <;>
      simp_all [validOut]

theorem runGroups_valid (rng : ℕ → ℝ) (jitter : ℝ) (upper : Char) (rel : Bool) (k : ℕ)
    (hu : upper = 'M' ∨ upper = 'L' ∨ upper = 'H' ∨ upper = 'V' ∨ upper = 'C' ∨
      upper = 'S' ∨ upper = 'Q' ∨ upper = 'T' ∨ upper = 'A') :
    ∀ (n : ℕ) (ps : List ℚ) (s : PState), ps.length ≤ n →
      ∀ c ∈ (runGroups rng jitter upper rel k ps s).1, validOut c := by
  intro n
  induction n with
  | zero =>
    intro ps s h c hc
    have hcnd : k = 0 ∨ ps.length < k := by omega
    rw [runGroups, if_pos hcnd] at hc
    simp at hc
  | succ m ih =>
    intro ps s h c hc
    by_cases hcnd : k = 0 ∨ ps.length < k
    · rw [runGroups, if_pos hcnd] at hc
      simp at hc
    · rw [runGroups, if_neg hcnd] at hc
      simp only [List.mem_append] at hc
      rcases hc with hc | hc
      · exact runCmdStep_valid rng jitter upper rel _ s hu c hc
      · exact ih (ps.drop k) _ (by simp only [List.length_drop]; omega) c hc

theorem runToken_valid (rng : ℕ → ℝ) (jitter : ℝ) (s : PState) (tok : Char × List Char) :
    ∀ c ∈ (runToken rng jitter s tok).1, validOut c := by
  intro c hc
  rw [runToken] at hc
  cases hpc : paramCounts tok.1.toUpper with
  | none =>
    simp only [hpc, List.mem_singleton] at hc
    subst hc
    exact hpc
  | some k =>
    simp only [hpc] at hc
    split_ifs at hc with hz
    · simp only [List.mem_singleton] at hc
      subst hc
      trivial
    · have hu := paramCounts_letters _ _ hpc
      have hu9 : tok.1.toUpper = 'M' ∨ tok.1.toUpper = 'L' ∨ tok.1.toUpper = 'H' ∨
          tok.1.toUpper = 'V' ∨ tok.1.toUpper = 'C' ∨ tok.1.toUpper = 'S' ∨
          tok.1.toUpper = 'Q' ∨ tok.1.toUpper = 'T' ∨ tok.1.toUpper = 'A' := by
        rcases hu with h | h | h | h | h | h | h | h | h | h <;> simp_all
      exact runGroups_valid rng jitter _ _ k hu9 (parseParams tok.2).length _ s
        le_rfl c hc

theorem runTokens_valid (rng : ℕ → ℝ) (jitter : ℝ) :
    ∀ (ts : List (Char × List Char)) (s : PState),
      ∀ c ∈ (runTokens rng jitter ts s).1, validOut c := by
  intro ts
  induction ts with
  | nil =>
    intro s c hc
    simp [runTokens] at hc
  | cons t rest ih =>
    intro s c hc
    rw [runTokens] at hc
    simp only [List.mem_append] at hc
    rcases hc with hc | hc
    · exact runToken_valid rng jitter s t c hc
    · exact ih _ c hc

/-- Claim C1 counterexample: on the input `H10` (jitter 0) the interpreter
re-emits a Line command — produced directly by the `H` branch, not converted
via `lineToBezier` — so not every emitted command is a Move, Cubic, or Close. -/
theorem only_move_cubic_close_cex :
    ((distortCmds ("H10") 0 (fun _ => 0) (initState 0)).1).all isMCZ = false := by
  have htok : tokenize (("H10").data) = [(('H'), ['1', '0'])] := by decide
  have hup : ('H').toUpper = 'H' := by decide
  have hpar : parseParams ['1', '0'] = [(10 : ℚ)] := by
    simp [parseParams, splitChunksAux, isSep, jsParseFloat, digitsVal, fracVal]
  rw [distortCmds, htok]
  simp [runTokens, runToken, hup, hpar, paramCounts, runGroups, runCmdStep,
    stepH, isMCZ]

/-- Claim C1 amended: every command the interpreter emits is a Move, Line,
Cubic, SmoothCubic (`S`), Quadratic (`Q`), SmoothQuadratic (`T`), or Close —
or the verbatim pass-through of an unknown command letter.  Line (`L`) and Arc
(`A`) inputs are normalized to Cubics, but Horizontal/Vertical inputs are
re-emitted as Line commands (not converted via `lineToBezier`), and `M`, `C`,
`S`, `Q`, `T` re-emit under their own uppercased letter. -/
theorem emitted_commands_amended (d : String) (jitter : ℝ) (rng : ℕ → ℝ)
    (s : PState) :
    ∀ c ∈ (distortCmds d jitter rng s).1, validOut c := by
  rw [distortCmds]
  exact runTokens_valid rng jitter (tokenize d.data) s

/-- Witness for `emitted_commands_amended` on the input `Z`. -/
theorem emitted_commands_amended_witness :
    OutCmd.close ∈ (distortCmds ("Z") 0 (fun _ => 0) (initState 0)).1 ∧
    validOut OutCmd.close := by
  have htok : tokenize (("Z").data) = [(('Z'), ([] : List Char))] := by decide
  have hup : ('Z').toUpper = 'Z' := by decide
  have hmem : OutCmd.close ∈ (distortCmds ("Z") 0 (fun _ => 0) (initState 0)).1 := by
    rw [distortCmds, htok]
    simp [runTokens, runToken, hup, paramCounts]
  exact ⟨hmem, emitted_commands_amended ("Z") 0 (fun _ => 0) (initState 0)
    OutCmd.close hmem⟩

theorem c4_cmds (rng : ℕ → ℝ) :
    (distortCmds ("M0,0 L10,0 L10,10 Z") 0 rng (initState 0)).1 =
      [OutCmd.gen ('M') [0, 0],
       OutCmd.cubic (10 / 3) 0 (20 / 3) 0 10 0,
       OutCmd.cubic 10 (10 / 3) 10 (20 / 3) 10 10,
       OutCmd.close] := by
  have htok : tokenize (("M0,0 L10,0 L10,10 Z").data) =
      [(('M'), ['0', ',', '0', ' ']), (('L'), ['1', '0', ',', '0', ' ']),
       (('L'), ['1', '0', ',', '1', '0', ' ']), (('Z'), ([] : List Char))] := by
    decide
  have hupM : ('M').toUpper = 'M' := by decide
  have hupL : ('L').toUpper = 'L' := by decide
  have hupZ : ('Z').toUpper = 'Z' := by decide
  have hp1 : parseParams ['0', ',', '0', ' '] = [(0 : ℚ), 0] := by
    simp [parseParams, splitChunksAux, isSep, jsParseFloat, digitsVal, fracVal]
  have hp2 : parseParams ['1', '0', ',', '0', ' '] = [(10 : ℚ), 0] := by
    simp [parseParams, splitChunksAux, isSep, jsParseFloat, digitsVal, fracVal]
  have hp3 : parseParams ['1', '0', ',', '1', '0', ' '] = [(10 : ℚ), 10] := by
    simp [parseParams, splitChunksAux, isSep, jsParseFloat, digitsVal, fracVal]
  rw [distortCmds, htok]
  simp [runTokens, runToken, hupM, hupL, hupZ, hp1, hp2, hp3, paramCounts,
    runGroups, runCmdStep, stepGen, stepL, genCoords, lineToBezier,
    distortCoord_zero, initState, List.getD]
  norm_num

/-- Claim C4: on the input `M0,0 L10,0 L10,10 Z` with jitter 0, the interpreter
emits exactly `M 0 0`, two collinear cubics with control points at the exact
thirds, and `Z` — rendering, with the host number-to-string conversion mapping
`0 ↦ "0"`, `10 ↦ "10"`, `10/3 ↦ "3.3333333333333335"`,
`20/3 ↦ "6.666666666666667"`, to the exact claimed output string. -/
theorem concrete_scenario (f : ℝ → String) (rng : ℕ → ℝ)
    (h0 : f 0 = "0") (h10 : f 10 = "10")
    (h13 : f (10 / 3) = "3.3333333333333335")
    (h23 : f (20 / 3) = "6.666666666666667") :
    distortPath f ("M0,0 L10,0 L10,10 Z") 0 rng =
      "M 0 0 C 3.3333333333333335 0 6.666666666666667 0 10 0 C 10 3.3333333333333335 10 6.666666666666667 10 10 Z" := by
  rw [distortPath, c4_cmds rng]
  simp only [List.map_cons, List.map_nil, renderCmd, renderPairs, h0, h10, h13, h23]
  decide

/-- Witness for `concrete_scenario` with the serializer table `jsNumRepr`. -/
theorem concrete_scenario_witness :
    jsNumRepr 0 = "0" ∧ jsNumRepr 10 = "10" ∧
    jsNumRepr (10 / 3) = "3.3333333333333335" ∧
    jsNumRepr (20 / 3) = "6.666666666666667" ∧
    distortPath jsNumRepr ("M0,0 L10,0 L10,10 Z") 0 (fun _ => 0) =
      "M 0 0 C 3.3333333333333335 0 6.666666666666667 0 10 0 C 10 3.3333333333333335 10 6.666666666666667 10 10 Z" := by
  have h0 : jsNumRepr 0 = "0" := by norm_num [jsNumRepr]
  have h10 : jsNumRepr 10 = "10" := by norm_num [jsNumRepr]
  have h13 : jsNumRepr (10 / 3) = "3.3333333333333335" := by norm_num [jsNumRepr]
  have h23 : jsNumRepr (20 / 3) = "6.666666666666667" := by norm_num [jsNumRepr]
  exact ⟨h0, h10, h13, h23,
    concrete_scenario jsNumRepr (fun _ => 0) h0 h10 h13 h23⟩

theorem atan2_bounds (y x : ℝ) : -Real.pi < atan2 y x ∧ atan2 y x ≤ Real.pi :=
  ⟨Complex.neg_pi_lt_arg _, Complex.arg_le_pi _⟩

/-- Algebraic core of the center equation: if `c² = (1 - L)/L` with
`L = x1p²/rx² + y1p²/ry²`, the center-relative start vector scaled by the radii
lies on the unit circle. -/
theorem unit_circle_helper (rx ry x1p y1p c L : ℝ) (hrx : rx ≠ 0) (hry : ry ≠ 0)
    (hL : L = x1p ^ 2 / rx ^ 2 + y1p ^ 2 / ry ^ 2) (hL0 : L ≠ 0)
    (hc : c ^ 2 = (1 - L) / L) :
    ((x1p - c * (rx * y1p) / ry) / rx) ^ 2 + ((y1p + c * (ry * x1p) / rx) / ry) ^ 2 = 1 := by
  have key : ((x1p - c * (rx * y1p) / ry) / rx) ^ 2 +
      ((y1p + c * (ry * x1p) / rx) / ry) ^ 2 = L + c ^ 2 * L := by
    rw [hL]
    field_simp
    ring
  rw [key, hc]
  field_simp

theorem Arc.sq_sum_x1p_y1p (a : Arc) : a.x1p ^ 2 + a.y1p ^ 2 = a.dx ^ 2 + a.dy ^ 2 := by
  have h := Real.sin_sq_add_cos_sq (toRadians a.xAxisRotation)
  rw [Arc.x1p, Arc.y1p, Arc.sinPhi, Arc.cosPhi]
  linear_combination (a.dx ^ 2 + a.dy ^ 2) * h

theorem Arc.vec_pos (a : Arc) (hse : a.px ≠ a.cx ∨ a.py ≠ a.cy) :
    0 < a.x1p ^ 2 + a.y1p ^ 2 := by
  rw [a.sq_sum_x1p_y1p]
  rcases hse with h | h
  · have hdx : a.dx ≠ 0 := by
      rw [Arc.dx]
      intro h0
      exact h (by linarith [(div_eq_zero_iff.mp h0).resolve_right (by norm_num : (2 : ℝ) ≠ 0)])
    have := pow_two_pos_of_ne_zero hdx
    nlinarith [sq_nonneg a.dy]
  · have hdy : a.dy ≠ 0 := by
      rw [Arc.dy]
      intro h0
      exact h (by linarith [(div_eq_zero_iff.mp h0).resolve_right (by norm_num : (2 : ℝ) ≠ 0)])
    have := pow_two_pos_of_ne_zero hdy
    nlinarith [sq_nonneg a.dx]

theorem Arc.lambda_eq (a : Arc) : a.lambda = a.x1p ^ 2 / a.rx ^ 2 + a.y1p ^ 2 / a.ry ^ 2 := by
  rw [Arc.lambda, Arc.x1p2, Arc.y1p2]
  ring_nf

theorem Arc.lambda_pos (a : Arc) (hrx : 0 < a.rx) (hry : 0 < a.ry)
    (hse : a.px ≠ a.cx ∨ a.py ≠ a.cy) : 0 < a.lambda := by
  rw [a.lambda_eq]
  have hvec := a.vec_pos hse
  rcases lt_or_le 0 (a.x1p ^ 2) with h | h
  · have h1 : 0 < a.x1p ^ 2 / a.rx ^ 2 := by positivity
    have h2 : 0 ≤ a.y1p ^ 2 / a.ry ^ 2 := by positivity
    linarith
  · have hx0 : a.x1p ^ 2 = 0 := le_antisymm h (sq_nonneg _)
    have hy : 0 < a.y1p ^ 2 := by nlinarith
    have h1 : 0 < a.y1p ^ 2 / a.ry ^ 2 := by positivity
    have h2 : 0 ≤ a.x1p ^ 2 / a.rx ^ 2 := by positivity
    linarith

theorem Arc.coef_sq (a : Arc) (hrx : 0 < a.rx) (hry : 0 < a.ry)
    (hse : a.px ≠ a.cx ∨ a.py ≠ a.cy) (hlam : a.lambda ≤ 1) :
    a.coef ^ 2 = (1 - a.lambda) / a.lambda := by
  have hlp := a.lambda_pos hrx hry hse
  have hrx2 : a.rx2 = a.rx * a.rx := if_neg (not_lt.mpr hlam)
  have hry2 : a.ry2 = a.ry * a.ry := if_neg (not_lt.mpr hlam)
  have hD : a.rx2 * a.y1p2 + a.ry2 * a.x1p2 =
      a.rx ^ 2 * a.ry ^ 2 * a.lambda := by
    rw [hrx2, hry2, Arc.lambda, Arc.x1p2, Arc.y1p2]
    field_simp
    ring
  have hDpos : 0 < a.rx ^ 2 * a.ry ^ 2 * a.lambda := by positivity
  have hR : (a.rx2 * a.ry2 - a.rx2 * a.y1p2 - a.ry2 * a.x1p2) /
      (a.rx2 * a.y1p2 + a.ry2 * a.x1p2) = (1 - a.lambda) / a.lambda := by
    rw [hD]
    rw [div_eq_div_iff (by positivity) (by positivity)]
    have hnum : a.rx2 * a.ry2 - a.rx2 * a.y1p2 - a.ry2 * a.x1p2 =
        a.rx ^ 2 * a.ry ^ 2 - a.rx ^ 2 * a.ry ^ 2 * a.lambda := by
      have : a.rx2 * a.y1p2 + a.ry2 * a.x1p2 = a.rx ^ 2 * a.ry ^ 2 * a.lambda := hD
      rw [hrx2, hry2] at this ⊢
      linarith [this]
    rw [hnum]
    ring
  have hRnn : 0 ≤ (1 - a.lambda) / a.lambda := div_nonneg (by linarith) (le_of_lt hlp)
  have hsgn : a.sign ^ 2 = 1 := by
    rw [Arc.sign]
    split_ifs <;> norm_num
  rw [Arc.coef, mul_pow, hsgn, one_mul, hR, max_eq_right hRnn,
    Real.sq_sqrt hRnn]

theorem Arc.unit_start (a : Arc) (hrx : 0 < a.rx) (hry : 0 < a.ry)
    (hse : a.px ≠ a.cx ∨ a.py ≠ a.cy) (hlam : a.lambda ≤ 1) :
    ((a.x1p - a.cxp) / a.rx) ^ 2 + ((a.y1p - a.cyp) / a.ry) ^ 2 = 1 := by
  have h := unit_circle_helper a.rx a.ry a.x1p a.y1p a.coef a.lambda
    (ne_of_gt hrx) (ne_of_gt hry) a.lambda_eq
    (ne_of_gt (a.lambda_pos hrx hry hse)) (a.coef_sq hrx hry hse hlam)
  rw [Arc.cxp, Arc.cyp]
  linear_combination h

theorem Arc.unit_end (a : Arc) (hrx : 0 < a.rx) (hry : 0 < a.ry)
    (hse : a.px ≠ a.cx ∨ a.py ≠ a.cy) (hlam : a.lambda ≤ 1) :
    ((-a.x1p - a.cxp) / a.rx) ^ 2 + ((-a.y1p - a.cyp) / a.ry) ^ 2 = 1 := by
  have hL : a.lambda = (-a.x1p) ^ 2 / a.rx ^ 2 + (-a.y1p) ^ 2 / a.ry ^ 2 := by
    rw [a.lambda_eq]
    ring
  have hc : (-a.coef) ^ 2 = (1 - a.lambda) / a.lambda := by
    rw [neg_pow, a.coef_sq hrx hry hse hlam]
    ring
  have h := unit_circle_helper a.rx a.ry (-a.x1p) (-a.y1p) (-a.coef) a.lambda
    (ne_of_gt hrx) (ne_of_gt hry) hL
    (ne_of_gt (a.lambda_pos hrx hry hse)) hc
  rw [Arc.cxp, Arc.cyp]
  linear_combination h

theorem Arc.cos_sin_startAngle (a : Arc) (hrx : 0 < a.rx) (hry : 0 < a.ry)
    (hse : a.px ≠ a.cx ∨ a.py ≠ a.cy) (hlam : a.lambda ≤ 1) :
    Real.cos a.startAngle = (a.x1p - a.cxp) / a.rx ∧
    Real.sin a.startAngle = (a.y1p - a.cyp) / a.ry := by
  rw [Arc.startAngle]
  exact atan2_cos_sin (a.unit_start hrx hry hse hlam)

theorem Arc.cos_sin_endAngle (a : Arc) (hrx : 0 < a.rx) (hry : 0 < a.ry)
    (hse : a.px ≠ a.cx ∨ a.py ≠ a.cy) (hlam : a.lambda ≤ 1) :
    Real.cos a.endAngle = (-a.x1p - a.cxp) / a.rx ∧
    Real.sin a.endAngle = (-a.y1p - a.cyp) / a.ry := by
  rw [Arc.endAngle]
  exact atan2_cos_sin (a.unit_end hrx hry hse hlam)

theorem Arc.deltaAngle_ne_zero (a : Arc) (hrx : 0 < a.rx) (hry : 0 < a.ry)
    (hse : a.px ≠ a.cx ∨ a.py ≠ a.cy) (hlam : a.lambda ≤ 1) :
    a.deltaAngle ≠ 0 := by
  have hcs := a.cos_sin_startAngle hrx hry hse hlam
  have hce := a.cos_sin_endAngle hrx hry hse hlam
  have hne : a.endAngle ≠ a.startAngle := by
    intro he
    have h1 : (-a.x1p - a.cxp) / a.rx = (a.x1p - a.cxp) / a.rx := by
      rw [← hce.1, ← hcs.1, he]
    have h2 : (-a.y1p - a.cyp) / a.ry = (a.y1p - a.cyp) / a.ry := by
      rw [← hce.2, ← hcs.2, he]
    have hrx' : a.rx ≠ 0 := ne_of_gt hrx
    have hry' : a.ry ≠ 0 := ne_of_gt hry
    have hx : a.x1p = 0 := by
      field_simp at h1
      linarith
    have hy : a.y1p = 0 := by
      field_simp at h2
      linarith
    have := a.vec_pos hse
    rw [hx, hy] at this
    norm_num at this
  have hb1 : -Real.pi < a.startAngle ∧ a.startAngle ≤ Real.pi := by
    rw [Arc.startAngle]
    exact atan2_bounds _ _
  have hb2 : -Real.pi < a.endAngle ∧ a.endAngle ≤ Real.pi := by
    rw [Arc.endAngle]
    exact atan2_bounds _ _
  have hraw : a.deltaAngle0 ≠ 0 := sub_ne_zero.mpr hne
  have hrawu : a.deltaAngle0 < 2 * Real.pi := by
    rw [Arc.deltaAngle0]
    linarith [hb1.1, hb2.2]
  have hrawl : -(2 * Real.pi) < a.deltaAngle0 := by
    rw [Arc.deltaAngle0]
    linarith [hb1.2, hb2.1]
  rw [Arc.deltaAngle, Arc.deltaAngle1]
  split_ifs with h1 h2 h3 <;>
    intro h0 <;>
    first
      | exact hraw (by linarith)
      | linarith

theorem Arc.segments_pos (a : Arc) (hrx : 0 < a.rx) (hry : 0 < a.ry)
    (hse : a.px ≠ a.cx ∨ a.py ≠ a.cy) (hlam : a.lambda ≤ 1) :
    0 < a.segments := by
  have hm : maxSegmentAngle ≠ 0 := by
    rw [maxSegmentAngle]
    positivity
  exact Nat.ceil_pos.mpr
    (abs_pos.mpr (div_ne_zero (a.deltaAngle_ne_zero hrx hry hse hlam) hm))

theorem Arc.cos_sin_start_add_delta (a : Arc) :
    Real.cos (a.startAngle + a.deltaAngle) = Real.cos a.endAngle ∧
    Real.sin (a.startAngle + a.deltaAngle) = Real.sin a.endAngle := by
  have hval : a.deltaAngle = a.deltaAngle0 ∨ a.deltaAngle = a.deltaAngle0 - 2 * Real.pi ∨
      a.deltaAngle = a.deltaAngle0 + 2 * Real.pi := by
    rw [Arc.deltaAngle, Arc.deltaAngle1]
    split_ifs
    · left
      ring
    · right
      left
      rfl
    · right
      right
      rfl
    · left
      rfl
  rw [Arc.deltaAngle0] at hval
  rcases hval with h | h | h <;> rw [h]
  · rw [show a.startAngle + (a.endAngle - a.startAngle) = a.endAngle by ring]
    exact ⟨rfl, rfl⟩
  · rw [show a.startAngle + (a.endAngle - a.startAngle - 2 * Real.pi) =
        a.endAngle - 2 * Real.pi by ring]
    exact ⟨Real.cos_sub_two_pi _, Real.sin_sub_two_pi _⟩
  · rw [show a.startAngle + (a.endAngle - a.startAngle + 2 * Real.pi) =
        a.endAngle + 2 * Real.pi by ring]
    exact ⟨Real.cos_add_two_pi _, Real.sin_add_two_pi _⟩

/-- Claim C3 amended: for every elliptical arc with positive radii, distinct
endpoints, and radii large enough (`lambda ≤ 1`, so the λ-correction branch is
not taken), and for each of the four combinations of `sweepFlag` and
`largeArcFlag`, the segment list is nonempty, the first segment's `p0` equals
the arc's start point and the last segment's `p3` equals the arc's end point,
each coordinate within `1e-6` (in fact exactly). -/
theorem arc_endpoint_fidelity_amended (a : Arc) (hrx : 0 < a.rx) (hry : 0 < a.ry)
    (hse : a.px ≠ a.cx ∨ a.py ≠ a.cy) (hlam : a.lambda ≤ 1) :
    arcToCubicBeziers a ≠ [] ∧
    |(arcToCubicBeziers a).headI.p0.x - a.px| ≤ 1e-6 ∧
    |(arcToCubicBeziers a).headI.p0.y - a.py| ≤ 1e-6 ∧
    |(arcToCubicBeziers a).getLastI.p3.x - a.cx| ≤ 1e-6 ∧
    |(arcToCubicBeziers a).getLastI.p3.y - a.cy| ≤ 1e-6 := by
  have hrx' : a.rx ≠ 0 := ne_of_gt hrx
  have hry' : a.ry ≠ 0 := ne_of_gt hry
  have hseg := a.segments_pos hrx hry hse hlam
  have hcs := a.cos_sin_startAngle hrx hry hse hlam
  have hce := a.cos_sin_endAngle hrx hry hse hlam
  have h1 : a.sinPhi ^ 2 + a.cosPhi ^ 2 = 1 := by
    rw [Arc.sinPhi, Arc.cosPhi]
    exact Real.sin_sq_add_cos_sq _
  have hcs1 : a.rx * Real.cos a.startAngle = a.x1p - a.cxp := by
    rw [hcs.1]
    field_simp
  have hcs2 : a.ry * Real.sin a.startAngle = a.y1p - a.cyp := by
    rw [hcs.2]
    field_simp
  have hadd := a.cos_sin_start_add_delta
  have hce1 : a.rx * Real.cos (a.startAngle + a.deltaAngle) = -a.x1p - a.cxp := by
    rw [hadd.1, hce.1]
    field_simp
  have hce2 : a.ry * Real.sin (a.startAngle + a.deltaAngle) = -a.y1p - a.cyp := by
    rw [hadd.2, hce.2]
    field_simp
  have hnil : arcToCubicBeziers a ≠ [] := by
    intro h0
    have hlen := congrArg List.length h0
    simp [arcToCubicBeziers] at hlen
    exact hseg.ne' hlen
  have hhead : (arcToCubicBeziers a).headI = a.segAt 0 := by
    rw [arcToCubicBeziers, headI_map_range _ hseg]
  have hlast : (arcToCubicBeziers a).getLastI = a.segAt (a.segments - 1) := by
    rw [arcToCubicBeziers, getLastI_map_range _ hseg]
  have hth0 : a.startAngle + ((0 : ℕ) : ℝ) * a.delta = a.startAngle := by
    push_cast
    ring
  have hsegR : ((a.segments : ℕ) : ℝ) ≠ 0 := Nat.cast_ne_zero.mpr hseg.ne'
  have hthN : a.startAngle + ((a.segments - 1 : ℕ) : ℝ) * a.delta + a.delta =
      a.startAngle + a.deltaAngle := by
    rw [Nat.cast_pred hseg, Arc.delta]
    field_simp
    ring
  have hp0x : (a.segAt 0).p0.x = a.px := by
    simp only [Arc.segAt]
    rw [hth0, hcs1, hcs2, Arc.cxCenter, Arc.x1p, Arc.y1p, Arc.dx, Arc.dy]
    linear_combination ((a.px - a.cx) / 2) * h1
  have hp0y : (a.segAt 0).p0.y = a.py := by
    simp only [Arc.segAt]
    rw [hth0, hcs1, hcs2, Arc.cyCenter, Arc.x1p, Arc.y1p, Arc.dx, Arc.dy]
    linear_combination ((a.py - a.cy) / 2) * h1
  have hp3x : (a.segAt (a.segments - 1)).p3.x = a.cx := by
    simp only [Arc.segAt]
    rw [hthN, hce1, hce2, Arc.cxCenter, Arc.x1p, Arc.y1p, Arc.dx, Arc.dy]
    linear_combination (-(a.px - a.cx) / 2) * h1
  have hp3y : (a.segAt (a.segments - 1)).p3.y = a.cy := by
    simp only [Arc.segAt]
    rw [hthN, hce1, hce2, Arc.cyCenter, Arc.x1p, Arc.y1p, Arc.dx, Arc.dy]
    linear_combination (-(a.py - a.cy) / 2) * h1
  refine ⟨hnil, ?_, ?_, ?_, ?_⟩
  · rw [hhead, hp0x]
    norm_num
  · rw [hhead, hp0y]
    norm_num
  · rw [hlast, hp3x]
    norm_num
  · rw [hlast, hp3y]
    norm_num

theorem arcOk_lambda : Arc.lambda arcOk = 1 := by
  have hx : Arc.x1p arcOk = -1 := by
    simp [Arc.x1p, Arc.cosPhi, Arc.sinPhi, Arc.dx, Arc.dy, arcOk, toRadians]
  have hy : Arc.y1p arcOk = 0 := by
    simp [Arc.y1p, Arc.cosPhi, Arc.sinPhi, Arc.dx, Arc.dy, arcOk, toRadians]
  rw [Arc.lambda, Arc.x1p2, Arc.y1p2, hx, hy]
  norm_num [arcOk]

/-- Witness for `arc_endpoint_fidelity_amended` on the arc from `(0,0)` to
`(2,0)` with `rx = ry = 1` (`lambda = 1`). -/
theorem arc_endpoint_fidelity_amended_witness :
    (0 : ℝ) < Arc.rx arcOk ∧ Arc.lambda arcOk ≤ 1 ∧
    |(arcToCubicBeziers arcOk).headI.p0.x - arcOk.px| ≤ 1e-6 :=
  ⟨by norm_num [arcOk], arcOk_lambda.le,
    (arc_endpoint_fidelity_amended arcOk (by norm_num [arcOk]) (by norm_num [arcOk])
      (Or.inl (by norm_num [arcOk])) arcOk_lambda.le).2.1⟩

/-- Claim C2 (code bug): on the arc `arcBug` from `(0,0)` to `(10,0)` with
`rx = ry = 1`, the radii are too small (`lambda = 25 > 1`) and the correction
branch runs: the scaled squared radii do satisfy
`x1p²/rx'² + y1p²/ry'² = 1`.  But the scaling is applied only to the local
`rx2`/`ry2` variables, never to the `rx`, `ry` used to generate segment points,
so the generated segment chain terminates at `x = 6`, not at the requested
endpoint `x = 10`. -/
theorem arc_radii_correction_bug :
    1 < Arc.lambda arcBug ∧
    Arc.x1p2 arcBug / Arc.rx2 arcBug + Arc.y1p2 arcBug / Arc.ry2 arcBug = 1 ∧
    (arcToCubicBeziers arcBug).getLastI.p3.x = 6 ∧
    arcBug.cx = 10 := by
  refine ⟨by rw [arcBug_lambda]; norm_num, ?_, ?_, rfl⟩
  · rw [Arc.x1p2, Arc.y1p2, arcBug_x1p, arcBug_y1p, arcBug_rx2, arcBug_ry2]
    norm_num
  · rw [arcToCubicBeziers,
      getLastI_map_range _ (by rw [arcBug_segments]; norm_num), arcBug_segments]
    exact arcBug_segAt11_p3_x

/-- Claim C3 counterexample: for the arc `arcBug` (radii too small, `lambda > 1`),
the first generated segment's `p0` is `(4, _)`, not the arc's start point
`(0, 0)`: endpoint fidelity fails by far more than `1e-6`. -/
theorem arc_endpoint_fidelity_cex :
    (arcToCubicBeziers arcBug).headI.p0.x = 4 ∧ arcBug.px = 0 ∧
    ¬ |(arcToCubicBeziers arcBug).headI.p0.x - arcBug.px| ≤ 1e-6 := by
  have h4 : (arcToCubicBeziers arcBug).headI.p0.x = 4 := by
    rw [arcToCubicBeziers, headI_map_range _ (by rw [arcBug_segments]; norm_num)]
    exact arcBug_segAt0_p0_x
  refine ⟨h4, rfl, ?_⟩
  rw [h4, show arcBug.px = 0 from rfl]
  norm_num

end
